import Mathlib

/-!
Verification development for the colcon-ros-buildfarm repository.

This file gives a shallow embedding of the parts of the code that the
claims C1-C10 are about:

* `colcon_ros_buildfarm/package_repository/local/rpm.py`
  (`LocalRpmPackageRepository`: the `_pkg_match` artifact-name regex,
  `import_source`, `import_binary`, `_import_to`),
* `colcon_ros_buildfarm/package_repository/local/__init__.py`
  (`LocalPackageRepository.augment_config`,
  `get_local_package_repository_extension_for_os`),
* `colcon_ros_buildfarm/verb/ros_buildfarm.py`
  (`_get_job_id`, the `ros_workspace` injection in `_discover_packages`),
* `colcon_ros_buildfarm/task/release/build.py`
  (`BuildfarmReleaseBuildTask.build` / `_build`).

Filenames are modelled as `String`, directory contents as `Finset String`
(Python `set` semantics), and fallible operations return `Option`.
-/

namespace ColconRosBuildfarm

/-! ## String helpers (over the character lists of strings) -/

/-- `s` ends with `suf` (used to model shell-glob suffix patterns such as
`*.rpm`; `pathlib.Path.glob` does not treat leading dots specially). -/
def strEnds (s suf : String) : Bool :=
  suf.data.isSuffixOf s.data

/-- `s` starts with `pre`. -/
def strStarts (s pre : String) : Bool :=
  pre.data.isPrefixOf s.data

/-- `sub` occurs as a contiguous substring of `s`. -/
def strContainsSub (s sub : String) : Bool :=
  (List.range (s.data.length + 1)).any (fun i => sub.data.isPrefixOf (s.data.drop i))

/-! ## The artifact-name regex of `LocalRpmPackageRepository`

`rpm.py` line 22: `re.compile(r'(.+)-(\d+(?:\.\d+)*)-(\d+.*)\.([^\.]+)\.rpm')`,
always used through `self._pkg_match.match(name)` (anchored at the start of
the string only) with the package name read from `m.group(1)`.

The matcher below reproduces Python's leftmost-greedy backtracking for this
particular pattern:
* group 1 (`.+`, no newline) is maximized first, scanning the candidate `-`
  separator positions from the right;
* group 2 (`\d+(?:\.\d+)*`) is a maximal munch (shortening it can never make
  the following literal `-` match, so no backtracking is needed);
* group 3 (`\d+.*`, no newline) is maximized by scanning the position of the
  final `\.([^\.]+)\.rpm` from the right; group 4 (`[^\.]+`) is a maximal
  munch of non-dot characters followed by the literal `.rpm`; characters may
  trail the match because `match` is not `fullmatch`.

`\d` is modelled as the ASCII digits. -/

/-- Maximal munch of `(?:\.\d+)*`: consumes as many `.digits` groups as
possible, returning the consumed characters and the rest.  The first
argument is recursion fuel (the list length suffices). -/
def verExt : Nat → List Char → List Char × List Char
  | 0, l => ([], l)
  | Nat.succ fuel, l =>
    match l with
    | '.' :: rest =>
      let ds := rest.takeWhile Char.isDigit
      if ds.isEmpty then ([], l)
      else
        let p := verExt fuel (rest.dropWhile Char.isDigit)
        ('.' :: (ds ++ p.1), p.2)
    | _ => ([], l)

/-- Match `\d+(?:\.\d+)*` (group 2) at the front of `l`, returning the
matched characters and the rest. -/
def matchVersion (l : List Char) : Option (List Char × List Char) :=
  let ds := l.takeWhile Char.isDigit
  if ds.isEmpty then none
  else
    let p := verExt l.length (l.dropWhile Char.isDigit)
    some (ds ++ p.1, p.2)

/-- Try to split `r3` as `(\d+.*)\.([^\.]+)\.rpm.*` with group 3 of length
exactly `k`: the first `k` characters must start with a digit and contain no
newline, then a literal `.`, then a maximal nonempty run of non-dot
characters (group 4), then the literal `.rpm`. -/
def checkTail (r3 : List Char) (k : Nat) : Option (List Char × List Char) :=
  let a := r3.take k
  match r3.drop k with
  | '.' :: afterDot =>
    let b := afterDot.takeWhile (fun c => c ≠ '.')
    let rest := afterDot.drop b.length
    if (match a with | c :: _ => c.isDigit | [] => false) &&
        !(a.contains '\n') && !b.isEmpty && ".rpm".data.isPrefixOf rest
    then some (a, b) else none
  | _ => none

/-- Match `(\d+.*)\.([^\.]+)\.rpm` against `r3`, maximizing group 3
(the greedy `.*`). -/
def matchTail (r3 : List Char) : Option (List Char × List Char) :=
  ((List.range (r3.length + 1)).reverse).findSome? (checkTail r3)

/-- Match `(\d+(?:\.\d+)*)-(\d+.*)\.([^\.]+)\.rpm` against the characters
following the separator after group 1, returning groups 2, 3 and 4. -/
def matchAfterName (rest : List Char) : Option (List Char × List Char × List Char) :=
  match matchVersion rest with
  | none => none
  | some (v, r) =>
    match r with
    | '-' :: r3 => (matchTail r3).map (fun g => (v, g.1, g.2))
    | _ => none

/-- `self._pkg_match.match(name)`: the four capture groups of the artifact
name pattern, or `none` when the name does not match. -/
def pkgMatch (name : String) : Option (String × String × String × String) :=
  let cs := name.data
  ((List.range cs.length).reverse).findSome? (fun i =>
    match cs.drop i with
    | '-' :: rest =>
      if 1 ≤ i && !((cs.take i).contains '\n') then
        (matchAfterName rest).map (fun g =>
          (String.mk (cs.take i), String.mk g.1, String.mk g.2.1, String.mk g.2.2))
      else none
    | _ => none)

/-- `m.group(1)` of the artifact name pattern: the parsed package name, or
`none` when parsing fails. -/
def parsePkgName (name : String) : Option String :=
  (pkgMatch name).map (fun g => g.1)

example : pkgMatch "foo-2.0-1.fc38.x86_64.rpm" =
    some ("foo", "2.0", "1.fc38", "x86_64") := by decide
example : parsePkgName "foo.rpm" = none := by decide
example : parsePkgName "foo-bar-1.0-1.fc38.x86_64.rpm" = some "foo-bar" := by decide
example : parsePkgName "foo-1.0-1.fc38.x86_64.rpm.bak" = some "foo" := by decide

/-! ## Glob patterns used by `rpm.py`

`pathlib.Path.glob` within one directory: `*` matches any sequence of
characters of the entry name (including a leading dot), so `'*.rpm'` is a
suffix test and `'*-debuginfo-*.rpm'` additionally requires the literal
`-debuginfo-` to occur before the final `.rpm`. -/

/-- The glob `*.rpm` (`rpm.py` lines 63 and 94). -/
def globRpm (n : String) : Bool :=
  strEnds n ".rpm"

/-- The glob `*.src.rpm` (`rpm.py` lines 45 and 60). -/
def globSrcRpm (n : String) : Bool :=
  strEnds n ".src.rpm"

/-- The glob `*-debuginfo-*.rpm` (`rpm.py` line 61): the name decomposes as
`A ++ "-debuginfo-" ++ B ++ ".rpm"`, i.e. it ends with `.rpm` and
`-debuginfo-` occurs in the part before that suffix. -/
def globDebuginfo (n : String) : Bool :=
  strEnds n ".rpm" && strContainsSub (String.mk (n.data.take (n.data.length - 4))) "-debuginfo-"

/-- The glob `*-debugsource-*.rpm` (`rpm.py` line 62). -/
def globDebugsource (n : String) : Bool :=
  strEnds n ".rpm" && strContainsSub (String.mk (n.data.take (n.data.length - 4))) "-debugsource-"

example : globDebuginfo "foo-debuginfo-1.0-1.fc38.x86_64.rpm" = true := by decide
example : globDebuginfo "foo-debuginfo.rpm" = false := by decide
example : globSrcRpm "foo-debuginfo-1.0-1.fc38.src.rpm" = true := by decide

/-! ## The local RPM repository import model (`rpm.py`)

A repository sub-partition (the `SRPMS`, architecture or `debug` directory)
is modelled as the `Finset String` of the file names it contains.  A
`RepoPartition` is the on-disk state of one `(os_name, os_code_name, arch)`
partition: files and the last generated metadata listing of each of its
three sub-partitions.

`createrepo_c --update --no-database --excludes=debug/* <dir>` is an
external tool; its listing is modelled from its documented behavior: it
scans the directory tree for `*.rpm` files, entries under a `debug/`
subdirectory appearing with a `debug/` path prefix, minus the paths matched
by the `--excludes` glob.  `_import_to` always passes `--excludes=debug/*`
(`rpm.py` line 107). -/

/-- Metadata listing produced by `createrepo_c` over a directory whose
direct entries are `direct` and whose `debug/` subdirectory contains
`debugSub`; `excludeDebug` is the `--excludes=debug/*` option. -/
def createrepoListing (direct debugSub : Finset String) (excludeDebug : Bool) :
    Finset String :=
  direct.filter (fun f => strEnds f ".rpm" = true) ∪
    (if excludeDebug then ∅
     else (debugSub.filter (fun f => strEnds f ".rpm" = true)).image (fun n => "debug/" ++ n))

/-- The set of parsed package names of the incoming artifacts
(`rpm.py` lines 84-92): names of unparseable artifacts are skipped
(with a warning). -/
def importedNames (rpms : Finset String) : Finset String :=
  rpms.biUnion (fun r => (parsePkgName r).toFinset)

/-- Whether the invalidation loop (`rpm.py` lines 94-97) unlinks the file
`f`: it is reached by the glob `*.rpm`, its name parses, and the parsed
package name is among the incoming package names. -/
def invalidated (f : String) (names : Finset String) : Bool :=
  globRpm f && ((parsePkgName f).elim false (fun n => decide (n ∈ names)))

/-- The sub-partition contents after the invalidation loop and before any
new artifact is linked in. -/
def invalidate (dir : Finset String) (names : Finset String) : Finset String :=
  dir.filter (fun f => invalidated f names = false)

/-- `LocalRpmPackageRepository._import_to(repo_dir, rpms)` on the file set
of one sub-partition: compute the incoming package names, unlink the
invalidated files, then hard-link each incoming artifact into the
directory.  `Path.hardlink_to` raises `FileExistsError` when the target
name still exists after invalidation, so the import fails (`none`) exactly
when some incoming file name survived invalidation. -/
def importTo (dir rpms : Finset String) : Option (Finset String) :=
  let kept := invalidate dir (importedNames rpms)
  if (rpms ∩ kept).Nonempty then none else some (kept ∪ rpms)

/-- On-disk state of one repository partition: files and last generated
metadata of the `SRPMS`, architecture and `debug` sub-partitions. -/
structure RepoPartition where
  srpmsFiles : Finset String
  srpmsMeta : Finset String
  archFiles : Finset String
  archMeta : Finset String
  debugFiles : Finset String
  debugMeta : Finset String
deriving DecidableEq

/-- `_import_to(srpms_dir, rpms)` (`rpm.py` line 52): import into the
`SRPMS` sub-partition and regenerate its metadata. -/
def importToSrpms (p : RepoPartition) (rpms : Finset String) : Option RepoPartition :=
  match importTo p.srpmsFiles rpms with
  | none => none
  | some files =>
    some { p with srpmsFiles := files, srpmsMeta := createrepoListing files ∅ true }

/-- `_import_to(arch_dir, rpms)` (`rpm.py` line 68): the architecture
directory contains the `debug/` subdirectory, which `--excludes=debug/*`
keeps out of the regenerated metadata. -/
def importToArch (p : RepoPartition) (rpms : Finset String) : Option RepoPartition :=
  match importTo p.archFiles rpms with
  | none => none
  | some files =>
    some { p with archFiles := files, archMeta := createrepoListing files p.debugFiles true }

/-- `_import_to(debug_dir, rpms)` (`rpm.py` line 75). -/
def importToDebug (p : RepoPartition) (rpms : Finset String) : Option RepoPartition :=
  match importTo p.debugFiles rpms with
  | none => none
  | some files =>
    some { p with debugFiles := files, debugMeta := createrepoListing files ∅ true }

/-- `LocalRpmPackageRepository.import_source` (`rpm.py` lines 41-52):
`sourceFiles` is the content of `<artifact_path>/sourcepkg`.  Returns the
new partition state and whether the unexpected-count warning was logged;
`none` models a raised exception. -/
def import_source (p : RepoPartition) (sourceFiles : Finset String) :
    Option (RepoPartition × Bool) :=
  let srpms := sourceFiles.filter (fun n => globSrcRpm n = true)
  let warned : Bool := decide (srpms.card ≠ 1)
  if srpms.Nonempty then (importToSrpms p srpms).map (fun q => (q, warned))
  else some (p, warned)

/-- The source-style artifacts found by `import_binary` (`rpm.py` line 60):
`glob('binarypkg/*.src.rpm')`. -/
def binSrpms (binFiles : Finset String) : Finset String :=
  binFiles.filter (fun n => globSrcRpm n = true)

/-- The debug artifacts found by `import_binary` (`rpm.py` lines 61-62):
`glob('binarypkg/*-debuginfo-*.rpm')` united with
`glob('binarypkg/*-debugsource-*.rpm')`. -/
def binDebugRpms (binFiles : Finset String) : Finset String :=
  binFiles.filter (fun n => (globDebuginfo n || globDebugsource n) = true)

/-- The architecture artifacts found by `import_binary` (`rpm.py` lines
63-65): `glob('binarypkg/*.rpm')` minus the source-style and debug sets. -/
def binArchRpms (binFiles : Finset String) : Finset String :=
  ((binFiles.filter (fun n => globRpm n = true)) \ binSrpms binFiles) \ binDebugRpms binFiles

/-- `LocalRpmPackageRepository.import_binary` (`rpm.py` lines 54-75):
`binFiles` is the content of `<artifact_path>/binarypkg`.  Returns the new
partition state and whether the no-arch-RPMs warning was logged; `none`
models a raised exception.  When the architecture set is empty only the
warning is logged; debug artifacts are imported either way. -/
def import_binary (p : RepoPartition) (binFiles : Finset String) :
    Option (RepoPartition × Bool) :=
  if (binArchRpms binFiles).Nonempty then
    match importToArch p (binArchRpms binFiles) with
    | none => none
    | some p1 =>
      if (binDebugRpms binFiles).Nonempty then
        (importToDebug p1 (binDebugRpms binFiles)).map (fun q => (q, false))
      else some (p1, false)
  else
    if (binDebugRpms binFiles).Nonempty then
      (importToDebug p (binDebugRpms binFiles)).map (fun q => (q, true))
    else some (p, true)

/-- The metadata of every sub-partition lists exactly the `*.rpm` files it
physically contains. -/
def metaExact (p : RepoPartition) : Prop :=
  p.srpmsMeta = p.srpmsFiles.filter (fun f => strEnds f ".rpm" = true) ∧
  p.archMeta = p.archFiles.filter (fun f => strEnds f ".rpm" = true) ∧
  p.debugMeta = p.debugFiles.filter (fun f => strEnds f ".rpm" = true)

instance (p : RepoPartition) : Decidable (metaExact p) := by
  unfold metaExact; infer_instance

/-! ## `LocalPackageRepository.augment_config` (`local/__init__.py`)

The cached build-file document is modelled by its fields used in
`augment_config`: the nested `targets` mapping and the `repositories`
`keys`/`urls` lists (`none` models an absent key, `some []` an empty
list — both are falsy in the `if not ...get('keys')` checks) plus the
`target_repository` field.  The `SimpleFileServer` is represented by the
`(host, port)` pair its `start()` returns. -/

/-- `ros_buildfarm.common.package_format_mapping` (external `ros_buildfarm`
library): maps an OS name to its package format.  Only the entries relevant
to the claims are listed; every other OS name maps to no format. -/
def package_format_mapping : String → Option String
  | "debian" => some "deb"
  | "ubuntu" => some "deb"
  | "fedora" => some "rpm"
  | "rhel" => some "rpm"
  | _ => none

/-- `get_local_package_repository_extension_for_os` (`local/__init__.py`
lines 194-206): resolve the format, then look it up among the registered
local-repository extensions.  The repository registers exactly one such
extension, `LocalRpmPackageRepository`, under the key `rpm`; the extension
is represented by that key. -/
def get_local_package_repository_extension_for_os (os_name : String) : Option String :=
  match package_format_mapping os_name with
  | none => none
  | some fmt => if fmt = "rpm" then some fmt else none

/-- The arguments read by `augment_config`: `getattr(args,
'package_repository', None)`, so the backend selection is optional. -/
structure AugArgs where
  package_repository : Option String
  ros_distro : String
  build_name : String
deriving DecidableEq

/-- The build-file document fields used by `augment_config`. -/
structure BuildFileDoc where
  targets : List (String × List (String × List String))
  repoKeys : Option (List String)
  repoUrls : Option (List String)
  target_repository : Option String
deriving DecidableEq

/-- The target triples of a build file (`local/__init__.py` lines 152-156):
every `(os_name, os_code_name, arch)` combination of the nested `targets`
mapping. -/
def flatTargets (bf : BuildFileDoc) : List (String × String × String) :=
  bf.targets.flatMap (fun osEntry =>
    osEntry.2.flatMap (fun codeEntry =>
      codeEntry.2.map (fun arch => (osEntry.1, codeEntry.1, arch))))

/-- The repository base URL (`local/__init__.py` line 180):
`http://{host}:{port}/{os_name}`. -/
def repoUrlBase (host : String) (port : Nat) (os_name : String) : String :=
  "http://" ++ host ++ ":" ++ toString port ++ "/" ++ os_name

/-- The build-file rewrite on the success path of `augment_config`
(`local/__init__.py` lines 175-188): normalize absent/empty `keys` and
`urls` to `[]`, prepend the empty signing key and the repository URL
(with the `/$releasever/$basearch/` suffix for `rhel`/`fedora`), and set
`target_repository` to the bare base URL. -/
def rewriteBuildFile (bf : BuildFileDoc) (os_name host : String) (port : Nat) :
    BuildFileDoc :=
  let url := repoUrlBase host port os_name
  { bf with
    repoKeys := some ("" :: bf.repoKeys.getD []),
    repoUrls := some
      ((if os_name = "rhel" ∨ os_name = "fedora"
        then url ++ "/$releasever/$basearch/" else url) :: bf.repoUrls.getD []),
    target_repository := some url }

/-- Outcome of one `augment_config` invocation. -/
inductive AugmentOutcome where
  /-- `package_repository != 'local'`: the pass does not apply. -/
  | notApplicable : AugmentOutcome
  /-- Some target OS has no local repository extension: warning logged and
  early `return` (`local/__init__.py` lines 160-164). -/
  | abortedNoExtension : AugmentOutcome
  /-- `assert len(os_names) == 1` failed: an `AssertionError` escapes the
  pass (`local/__init__.py` line 169). -/
  | assertionFailure : AugmentOutcome
  /-- The file server was started and the build file rewritten; carries the
  rewritten document and the server base URL. -/
  | success : BuildFileDoc → String → AugmentOutcome
deriving DecidableEq

/-- Whether the outcome started the ephemeral file server: the
`SimpleFileServer` is constructed and started only on the path reaching
line 172, after the extension checks and the OS-family assertion. -/
def serverStarted : AugmentOutcome → Bool
  | AugmentOutcome.success _ _ => true
  | _ => false

/-- The build-file document written back to disk by the outcome, if any:
only the success path reaches the `yaml.dump` at line 191. -/
def rewrittenDoc : AugmentOutcome → Option BuildFileDoc
  | AugmentOutcome.success bf _ => some bf
  | _ => none

/-- `LocalPackageRepository.augment_config` (`local/__init__.py` lines
133-191).  `host`/`port` are the address the file server would bind.  The
`initialize` calls only create directories and empty metadata, so they are
not part of the observable outcome. -/
def augment_config (args : AugArgs) (bf : BuildFileDoc) (host : String) (port : Nat) :
    AugmentOutcome :=
  if args.package_repository ≠ some "local" then AugmentOutcome.notApplicable
  else if (flatTargets bf).any
      (fun t => (get_local_package_repository_extension_for_os t.1).isNone) then
    AugmentOutcome.abortedNoExtension
  else
    match ((flatTargets bf).map (fun t => t.1)).dedup with
    | [os_name] =>
      AugmentOutcome.success (rewriteBuildFile bf os_name host port)
        (repoUrlBase host port os_name)
    | _ => AugmentOutcome.assertionFailure

/-! ## Job identifiers (`verb/ros_buildfarm.py`) -/

/-- The per-job argument record handed to `_get_job_id`
(`BuildBuildfarmPackageArguments` fields it reads). -/
structure JobArgs where
  ros_distro : String
  build_name : String
  os_name : String
  os_code_name : String
  arch : String
deriving DecidableEq

/-- `_get_job_id(pkg_name, args)` (`verb/ros_buildfarm.py` lines 100-107):
`args.ros_distro[0].upper()` raises `IndexError` on an empty distro name,
modelled by `none`; `str.upper` on the single character is modelled by
`Char.toUpper` (ASCII). -/
def get_job_id (pkg_name : String) (args : JobArgs) : Option String :=
  match args.ros_distro.data with
  | [] => none
  | c :: _ =>
    let pfx0 := String.mk [c.toUpper] ++ "rel"
    let pfx := if args.build_name ≠ "default" then pfx0 ++ "_" ++ args.build_name else pfx0
    some (pfx ++ "__" ++ pkg_name ++ "__" ++
      args.os_name ++ "_" ++ args.os_code_name ++ "_" ++ args.arch)

/-- Modelled from the spec: the documented identifier format
`<DistroPrefix>rel[_<buildName>]__<pkgName>__<os>_<osCodeName>_<arch>`,
where the `_<buildName>` part is present only when the build name differs
from `default`. -/
def jobIdSpecFormat (distroPrefix buildName pkgName osName osCodeName arch : String) :
    String :=
  distroPrefix ++ "rel" ++ (if buildName = "default" then "" else "_" ++ buildName) ++
    "__" ++ pkgName ++ "__" ++ osName ++ "_" ++ osCodeName ++ "_" ++ arch

/-! ## The `ros_workspace` dependency injection (`verb/ros_buildfarm.py`) -/

/-- A package descriptor as used by the injection block: its unique name
and its `build` and `run` dependency sets (`DependencyDescriptor` is a
`str` subclass, so the sets are sets of names). -/
structure PkgDesc where
  name : String
  buildDeps : Finset String
  runDeps : Finset String
deriving DecidableEq

/-- The `ros_workspace` injection in `_discover_packages`
(`verb/ros_buildfarm.py` lines 72-84): find the first discovered descriptor
named `ros_workspace`; when present, every descriptor whose name is neither
`ros_workspace` nor one of `ros_workspace`'s own `build` dependencies gets
a `ros_workspace` dependency added to its `build` and `run` sets. -/
def injectRosWorkspace (descs : List PkgDesc) : List PkgDesc :=
  match descs.find? (fun d => d.name == "ros_workspace") with
  | none => descs
  | some rw =>
    let workspaceDeps := insert rw.name rw.buildDeps
    descs.map (fun d =>
      if d.name ∈ workspaceDeps then d
      else { d with buildDeps := insert "ros_workspace" d.buildDeps,
                    runDeps := insert "ros_workspace" d.runDeps })

/-! ## The build task state machine (`task/release/build.py`)

`BuildfarmReleaseBuildTask._build` is modelled as a function of the exit
codes of its three subprocesses (the `git clone`, the generation script and
the `sh job.sh -y` execution); the staging directory resets and the
artifact imports have no exit code.  The function returns the Python return value of
`_build` (`none` for the final implicit `return None`, `some rc` with
`rc ≠ 0` for an early `return`) together with the list of stages it
executed, in order. -/

/-- Exit codes of the three subprocesses a `_build` run may spawn. -/
structure StageCodes where
  clone : Int
  gen : Int
  build : Int
deriving DecidableEq

/-- The stages of one `_build` invocation. -/
inductive Stage where
  | staging : Stage
  | sourceFetch : Stage
  | scriptGen : Stage
  | scriptExec : Stage
  | importSource : Stage
  | importBinary : Stage
deriving DecidableEq

/-- `BuildfarmReleaseBuildTask._build` (`task/release/build.py` lines
35-94): staging always runs, then each subprocess stage runs only if every
earlier one exited zero, and a non-zero exit is returned immediately; both
artifact imports run only after the three subprocesses all exited zero. -/
def buildStages (c : StageCodes) : Option Int × List Stage :=
  if c.clone ≠ 0 then (some c.clone, [Stage.staging, Stage.sourceFetch])
  else if c.gen ≠ 0 then (some c.gen, [Stage.staging, Stage.sourceFetch, Stage.scriptGen])
  else if c.build ≠ 0 then
    (some c.build, [Stage.staging, Stage.sourceFetch, Stage.scriptGen, Stage.scriptExec])
  else
    (none, [Stage.staging, Stage.sourceFetch, Stage.scriptGen, Stage.scriptExec,
      Stage.importSource, Stage.importBinary])

/-- `BuildfarmReleaseBuildTask.build` (`task/release/build.py` lines
26-33): run `_build` once per triple of the package's `target_platforms`
metadata, in order, returning the first truthy (non-`None`) result; the
second component records the platforms for which `_build` ran. -/
def taskBuild (platforms : List (String × String × String))
    (outcome : String × String × String → StageCodes) :
    Option Int × List (String × String × String) :=
  match platforms with
  | [] => (none, [])
  | p :: rest =>
    match (buildStages (outcome p)).1 with
    | some rc => (some rc, [p])
    | none =>
      let r := taskBuild rest outcome
      (r.1, p :: r.2)

/-! ## Helper lemmas about the import model -/

theorem mem_invalidate {dir names : Finset String} {f : String} :
    f ∈ invalidate dir names ↔ f ∈ dir ∧ invalidated f names = false := by
  simp [invalidate]

theorem invalidated_of_parse_none {f : String} {names : Finset String}
    (h : parsePkgName f = none) : invalidated f names = false := by
  simp [invalidated, h]

theorem invalidated_of_mem {f n : String} {names : Finset String}
    (hg : globRpm f = true) (hp : parsePkgName f = some n) (hn : n ∈ names) :
    invalidated f names = true := by
  simp [invalidated, hg, hp, hn]

theorem invalidated_of_not_mem {f n : String} {names : Finset String}
    (hp : parsePkgName f = some n) (hn : n ∉ names) :
    invalidated f names = false := by
  simp [invalidated, hp, hn]

theorem importTo_some {dir rpms out : Finset String}
    (h : importTo dir rpms = some out) :
    out = invalidate dir (importedNames rpms) ∪ rpms := by
  simp only [importTo] at h
  split at h
  · exact absurd h (by simp)
  · exact (Option.some.inj h).symm

theorem createrepoListing_exclude (d s : Finset String) :
    createrepoListing d s true = d.filter (fun f => strEnds f ".rpm" = true) := by
  simp [createrepoListing]

theorem importToSrpms_some {p q : RepoPartition} {rpms : Finset String}
    (h : importToSrpms p rpms = some q) :
    q.srpmsFiles = invalidate p.srpmsFiles (importedNames rpms) ∪ rpms ∧
    q.srpmsMeta = q.srpmsFiles.filter (fun f => strEnds f ".rpm" = true) ∧
    q.archFiles = p.archFiles ∧ q.archMeta = p.archMeta ∧
    q.debugFiles = p.debugFiles ∧ q.debugMeta = p.debugMeta := by
  unfold importToSrpms at h
  cases hi : importTo p.srpmsFiles rpms with
  | none => rw [hi] at h; exact absurd h (by simp)
  | some files =>
    rw [hi] at h
    obtain rfl := Option.some.inj h
    refine ⟨importTo_some hi, ?_, rfl, rfl, rfl, rfl⟩
    simpa using (createrepoListing_exclude files ∅)

theorem importToArch_some {p q : RepoPartition} {rpms : Finset String}
    (h : importToArch p rpms = some q) :
    q.archFiles = invalidate p.archFiles (importedNames rpms) ∪ rpms ∧
    q.archMeta = q.archFiles.filter (fun f => strEnds f ".rpm" = true) ∧
    q.srpmsFiles = p.srpmsFiles ∧ q.srpmsMeta = p.srpmsMeta ∧
    q.debugFiles = p.debugFiles ∧ q.debugMeta = p.debugMeta := by
  unfold importToArch at h
  cases hi : importTo p.archFiles rpms with
  | none => rw [hi] at h; exact absurd h (by simp)
  | some files =>
    rw [hi] at h
    obtain rfl := Option.some.inj h
    refine ⟨importTo_some hi, ?_, rfl, rfl, rfl, rfl⟩
    simpa using (createrepoListing_exclude files p.debugFiles)

theorem importToDebug_some {p q : RepoPartition} {rpms : Finset String}
    (h : importToDebug p rpms = some q) :
    q.debugFiles = invalidate p.debugFiles (importedNames rpms) ∪ rpms ∧
    q.debugMeta = q.debugFiles.filter (fun f => strEnds f ".rpm" = true) ∧
    q.srpmsFiles = p.srpmsFiles ∧ q.srpmsMeta = p.srpmsMeta ∧
    q.archFiles = p.archFiles ∧ q.archMeta = p.archMeta := by
  unfold importToDebug at h
  cases hi : importTo p.debugFiles rpms with
  | none => rw [hi] at h; exact absurd h (by simp)
  | some files =>
    rw [hi] at h
    obtain rfl := Option.some.inj h
    refine ⟨importTo_some hi, ?_, rfl, rfl, rfl, rfl⟩
    simpa using (createrepoListing_exclude files ∅)

theorem metaExact_importToSrpms {p q : RepoPartition} {rpms : Finset String}
    (hp : metaExact p) (h : importToSrpms p rpms = some q) : metaExact q := by
  obtain ⟨_, hM, hA1, hA2, hD1, hD2⟩ := importToSrpms_some h
  exact ⟨hM, by rw [hA2, hA1]; exact hp.2.1, by rw [hD2, hD1]; exact hp.2.2⟩

theorem metaExact_importToArch {p q : RepoPartition} {rpms : Finset String}
    (hp : metaExact p) (h : importToArch p rpms = some q) : metaExact q := by
  obtain ⟨_, hM, hS1, hS2, hD1, hD2⟩ := importToArch_some h
  exact ⟨by rw [hS2, hS1]; exact hp.1, hM, by rw [hD2, hD1]; exact hp.2.2⟩

theorem metaExact_importToDebug {p q : RepoPartition} {rpms : Finset String}
    (hp : metaExact p) (h : importToDebug p rpms = some q) : metaExact q := by
  obtain ⟨_, hM, hS1, hS2, hA1, hA2⟩ := importToDebug_some h
  exact ⟨by rw [hS2, hS1]; exact hp.1, by rw [hA2, hA1]; exact hp.2.1, hM⟩

/-- Case analysis on a successful `import_binary`: there is an intermediate
partition state `p1` after the architecture phase, and each phase
either imported a nonempty artifact set or left the state alone. -/
theorem import_binary_cases {p p' : RepoPartition} {binFiles : Finset String} {w : Bool}
    (h : import_binary p binFiles = some (p', w)) :
    ∃ p1 : RepoPartition,
      ((binArchRpms binFiles).Nonempty ∧ w = false ∧
          importToArch p (binArchRpms binFiles) = some p1 ∨
        ¬(binArchRpms binFiles).Nonempty ∧ w = true ∧ p1 = p) ∧
      ((binDebugRpms binFiles).Nonempty ∧
          importToDebug p1 (binDebugRpms binFiles) = some p' ∨
        ¬(binDebugRpms binFiles).Nonempty ∧ p' = p1) := by
  simp only [import_binary] at h
  split at h
  · rename_i ha
    split at h
    · exact absurd h (by simp)
    · rename_i q hi
      split at h
      · rename_i hd
        obtain ⟨p2, hp2, hpe⟩ := Option.map_eq_some'.mp h
        obtain ⟨rfl, rfl⟩ := Prod.mk.inj hpe
        exact ⟨q, Or.inl ⟨ha, rfl, hi⟩, Or.inl ⟨hd, hp2⟩⟩
      · rename_i hd
        obtain ⟨rfl, rfl⟩ := Prod.mk.inj (Option.some.inj h)
        exact ⟨q, Or.inl ⟨ha, rfl, hi⟩, Or.inr ⟨hd, rfl⟩⟩
  · rename_i ha
    split at h
    · rename_i hd
      obtain ⟨p2, hp2, hpe⟩ := Option.map_eq_some'.mp h
      obtain ⟨rfl, rfl⟩ := Prod.mk.inj hpe
      exact ⟨p, Or.inr ⟨ha, rfl, rfl⟩, Or.inl ⟨hd, hp2⟩⟩
    · rename_i hd
      obtain ⟨rfl, rfl⟩ := Prod.mk.inj (Option.some.inj h)
      exact ⟨p, Or.inr ⟨ha, rfl, rfl⟩, Or.inr ⟨hd, rfl⟩⟩

theorem isPrefixOf_self_append (l r : List Char) : l.isPrefixOf (l ++ r) = true := by
  induction l with
  | nil => simp [List.isPrefixOf]
  | cons c cs ih => simp [List.isPrefixOf, ih]

theorem strStarts_append (s t : String) : strStarts (s ++ t) s = true := by
  have hd : (s ++ t).data = s.data ++ t.data := String.data_append s t
  simp [strStarts, hd, isPrefixOf_self_append]

/-! ## Sample inputs used by the witness theorems -/

def samplePartition : RepoPartition := ⟨∅, ∅, ∅, ∅, ∅, ∅⟩

def sampleBin : Finset String :=
  {"foo-2.0-1.fc38.x86_64.rpm", "foo-debuginfo-2.0-1.fc38.x86_64.rpm"}

def sampleBinResult : RepoPartition :=
  ⟨∅, ∅, {"foo-2.0-1.fc38.x86_64.rpm"}, {"foo-2.0-1.fc38.x86_64.rpm"},
   {"foo-debuginfo-2.0-1.fc38.x86_64.rpm"}, {"foo-debuginfo-2.0-1.fc38.x86_64.rpm"}⟩

def sampleDir : Finset String :=
  {"foo-1.0-1.fc38.x86_64.rpm", "bar-1.0-1.fc38.x86_64.rpm"}

def sampleIncoming : Finset String := {"foo-2.0-1.fc38.x86_64.rpm"}

def sampleImportResult : Finset String :=
  {"bar-1.0-1.fc38.x86_64.rpm", "foo-2.0-1.fc38.x86_64.rpm"}

def sampleJunkDir : Finset String := {"junk.rpm", "foo-1.0-1.fc38.x86_64.rpm"}

/-! ## The claims -/

/-- C1: after every successful import operation (`import_source` or
`import_binary`, each followed by its metadata regeneration), the
regenerated metadata of each affected sub-partition lists exactly the set
of artifact files physically present in that sub-partition (no stale
references, no missing entries); files under the `debug/` sub-area are
excluded from the architecture sub-partition's default metadata while
appearing in the debug sub-partition's own metadata. -/
theorem release_repo_metadata_exact :
    ∀ p : RepoPartition, metaExact p →
      (∀ src p' w, import_source p src = some (p', w) → metaExact p') ∧
      (∀ bin p' w, import_binary p bin = some (p', w) →
        metaExact p' ∧
        (∀ f ∈ p'.debugFiles,
          ((∀ g ∈ p'.archFiles, strStarts g "debug/" = false) →
            ("debug/" ++ f) ∉ p'.archMeta) ∧
          (strEnds f ".rpm" = true → f ∈ p'.debugMeta))) := by
  intro p hp
  constructor
  · intro src p' w h
    simp only [import_source] at h
    split at h
    · obtain ⟨q, hq, hqe⟩ := Option.map_eq_some'.mp h
      obtain ⟨rfl, rfl⟩ := Prod.mk.inj hqe
      exact metaExact_importToSrpms hp hq
    · obtain ⟨rfl, rfl⟩ := Prod.mk.inj (Option.some.inj h)
      exact hp
  · intro bin p' w h
    obtain ⟨p1, hA, hD⟩ := import_binary_cases h
    have hp1 : metaExact p1 := by
      rcases hA with ⟨_, _, hi⟩ | ⟨_, _, rfl⟩
      · exact metaExact_importToArch hp hi
      · exact hp
    have hp' : metaExact p' := by
      rcases hD with ⟨_, hi⟩ | ⟨_, rfl⟩
      · exact metaExact_importToDebug hp1 hi
      · exact hp1
    refine ⟨hp', ?_⟩
    intro f hf
    constructor
    · intro hnd hmem
      rw [hp'.2.1] at hmem
      have h2 := hnd _ (Finset.mem_filter.mp hmem).1
      rw [strStarts_append "debug/" f] at h2
      simp at h2
    · intro hrpm
      rw [hp'.2.2]
      exact Finset.mem_filter.mpr ⟨hf, hrpm⟩

theorem release_repo_metadata_exact_witness :
    metaExact samplePartition ∧
    import_binary samplePartition sampleBin = some (sampleBinResult, false) ∧
    metaExact sampleBinResult :=
  ⟨by decide, by decide,
    (((release_repo_metadata_exact samplePartition (by decide)).2)
      sampleBin sampleBinResult false (by decide)).1⟩

/-- C2: invalidation is name-scoped and happens before addition: on
every import into a sub-partition, every previously present `*.rpm` file whose
parsed package name matches the parsed name of an incoming artifact is
removed by the invalidation step (before the incoming artifacts are
linked in), and every previously present file with a different parsed
package name survives invalidation and is still present afterwards. -/
theorem release_repo_invalidation_name_scoped :
    ∀ (dir rpms out : Finset String), importTo dir rpms = some out →
      ∀ f ∈ dir,
        (globRpm f = true → ∀ n, parsePkgName f = some n → n ∈ importedNames rpms →
          f ∉ invalidate dir (importedNames rpms)) ∧
        (∀ n, parsePkgName f = some n → n ∉ importedNames rpms →
          f ∈ invalidate dir (importedNames rpms) ∧ f ∈ out) := by
  intro dir rpms out h f hf
  constructor
  · intro hg n hp hn hmem
    have h2 := (mem_invalidate.mp hmem).2
    rw [invalidated_of_mem hg hp hn] at h2
    simp at h2
  · intro n hp hn
    have hinv : f ∈ invalidate dir (importedNames rpms) :=
      mem_invalidate.mpr ⟨hf, invalidated_of_not_mem hp hn⟩
    exact ⟨hinv, by rw [importTo_some h]; exact Finset.mem_union_left _ hinv⟩

theorem release_repo_invalidation_name_scoped_witness :
    importTo sampleDir sampleIncoming = some sampleImportResult ∧
    "foo-1.0-1.fc38.x86_64.rpm" ∉ invalidate sampleDir (importedNames sampleIncoming) ∧
    ("bar-1.0-1.fc38.x86_64.rpm" ∈ invalidate sampleDir (importedNames sampleIncoming) ∧
      "bar-1.0-1.fc38.x86_64.rpm" ∈ sampleImportResult) :=
  ⟨by decide,
   (release_repo_invalidation_name_scoped sampleDir sampleIncoming sampleImportResult
      (by decide) _ (by decide)).1 (by decide) "foo" (by decide) (by decide),
   (release_repo_invalidation_name_scoped sampleDir sampleIncoming sampleImportResult
      (by decide) _ (by decide)).2 "bar" (by decide) (by decide)⟩

/-- C9: a file already present in a sub-partition whose name does not parse
under the artifact naming pattern is never deleted by an import: it
survives the invalidation step and is present in the result of every
successful import, whatever artifacts are imported. -/
theorem import_unparseable_preserved :
    ∀ (dir rpms : Finset String) (f : String), f ∈ dir → parsePkgName f = none →
      f ∈ invalidate dir (importedNames rpms) ∧
      ∀ out, importTo dir rpms = some out → f ∈ out := by
  intro dir rpms f hf hp
  have hinv : f ∈ invalidate dir (importedNames rpms) :=
    mem_invalidate.mpr ⟨hf, invalidated_of_parse_none hp⟩
  exact ⟨hinv, fun out h => by
    rw [importTo_some h]; exact Finset.mem_union_left _ hinv⟩

/-- C3 counterexample: `foo-debuginfo-1.0-1.fc38.src.rpm` is matched both by
the source-style glob `*.src.rpm` and by the debug glob `*-debuginfo-*.rpm`,
so the source-style and debug artifact sets of `import_binary` are not
disjoint; moreover this source-style artifact is not excluded from
the import — it is imported into the debug sub-partition. -/
theorem import_binary_disjointness_cex :
    "foo-debuginfo-1.0-1.fc38.src.rpm" ∈
      binSrpms {"foo-debuginfo-1.0-1.fc38.src.rpm"} ∧
    "foo-debuginfo-1.0-1.fc38.src.rpm" ∈
      binDebugRpms {"foo-debuginfo-1.0-1.fc38.src.rpm"} ∧
    import_binary samplePartition {"foo-debuginfo-1.0-1.fc38.src.rpm"} =
      some (⟨∅, ∅, ∅, ∅, {"foo-debuginfo-1.0-1.fc38.src.rpm"},
              {"foo-debuginfo-1.0-1.fc38.src.rpm"}⟩, true) :=
  ⟨by decide, by decide, by decide⟩

/-- C3 (amended): `import_binary` splits the discovered artifacts into the
source-style set (`*.src.rpm`, not imported into the architecture
sub-partition), the debug set, and the remaining architecture set.  The
architecture set is disjoint from each of the other two (the source-style
and debug sets may overlap, such files going to the debug sub-partition).
Architecture artifacts are imported into the arch sub-partition and debug
artifacts into the debug sub-partition; when the architecture set is empty
a warning is logged and the arch sub-partition is untouched, while any
debug artifacts are still imported. -/
theorem import_binary_partitioning :
    ∀ (p p' : RepoPartition) (bin : Finset String) (w : Bool),
      import_binary p bin = some (p', w) →
      Disjoint (binArchRpms bin) (binSrpms bin) ∧
      Disjoint (binArchRpms bin) (binDebugRpms bin) ∧
      ((binArchRpms bin).Nonempty → w = false ∧
        p'.archFiles =
          invalidate p.archFiles (importedNames (binArchRpms bin)) ∪ binArchRpms bin) ∧
      (¬(binArchRpms bin).Nonempty → w = true ∧
        p'.archFiles = p.archFiles ∧ p'.archMeta = p.archMeta) ∧
      ((binDebugRpms bin).Nonempty →
        p'.debugFiles =
          invalidate p.debugFiles (importedNames (binDebugRpms bin)) ∪ binDebugRpms bin) ∧
      (¬(binDebugRpms bin).Nonempty →
        p'.debugFiles = p.debugFiles ∧ p'.debugMeta = p.debugMeta) ∧
      p'.srpmsFiles = p.srpmsFiles := by
  intro p p' bin w h
  have d1 : Disjoint (binArchRpms bin) (binSrpms bin) := by
    unfold binArchRpms
    exact Disjoint.mono_left Finset.sdiff_subset Finset.sdiff_disjoint
  have d2 : Disjoint (binArchRpms bin) (binDebugRpms bin) := by
    unfold binArchRpms
    exact Finset.sdiff_disjoint
  obtain ⟨p1, hA, hD⟩ := import_binary_cases h
  rcases hA with ⟨hane, hw, hi⟩ | ⟨hane, hw, rfl⟩ <;>
    rcases hD with ⟨hdne, hdi⟩ | ⟨hdne, rfl⟩
  · obtain ⟨ha1, _, hs1, _, hd1, _⟩ := importToArch_some hi
    obtain ⟨hb1, _, hbs1, _, hba1, _⟩ := importToDebug_some hdi
    refine ⟨d1, d2, fun _ => ⟨hw, ?_⟩, fun hc => absurd hane hc,
      fun _ => ?_, fun hc => absurd hdne hc, ?_⟩
    · rw [hba1, ha1]
    · rw [hb1, hd1]
    · rw [hbs1, hs1]
  · obtain ⟨ha1, _, hs1, _, hd1, hd2m⟩ := importToArch_some hi
    refine ⟨d1, d2, fun _ => ⟨hw, ha1⟩, fun hc => absurd hane hc,
      fun hc => absurd hc hdne, fun _ => ⟨hd1, hd2m⟩, hs1⟩
  · obtain ⟨hb1, _, hbs1, _, hba1, hba2⟩ := importToDebug_some hdi
    refine ⟨d1, d2, fun hc => absurd hc hane, fun _ => ⟨hw, hba1, hba2⟩,
      fun _ => hb1, fun hc => absurd hdne hc, hbs1⟩
  · exact ⟨d1, d2, fun hc => absurd hc hane, fun _ => ⟨hw, rfl, rfl⟩,
      fun hc => absurd hc hdne, fun _ => ⟨rfl, rfl⟩, rfl⟩

theorem import_binary_partitioning_witness :
    import_binary samplePartition sampleBin = some (sampleBinResult, false) ∧
    Disjoint (binArchRpms sampleBin) (binSrpms sampleBin) ∧
    sampleBinResult.debugFiles =
      invalidate samplePartition.debugFiles (importedNames (binDebugRpms sampleBin)) ∪
        binDebugRpms sampleBin :=
  ⟨by decide,
   (import_binary_partitioning samplePartition sampleBinResult sampleBin false (by decide)).1,
   (import_binary_partitioning samplePartition sampleBinResult sampleBin false
      (by decide)).2.2.2.2.1 (by decide)⟩

theorem import_unparseable_preserved_witness :
    "junk.rpm" ∈ sampleJunkDir ∧ parsePkgName "junk.rpm" = none ∧
    "junk.rpm" ∈ invalidate sampleJunkDir (importedNames sampleIncoming) :=
  ⟨by decide, by decide,
   (import_unparseable_preserved sampleJunkDir sampleIncoming "junk.rpm"
      (by decide) (by decide)).1⟩

/-- C4 counterexample: only the first letter of the distribution name
survives (uppercased) in the identifier, so the two distinct tuples for
distros `humble` and `harmonic` (same build name, package and platform)
produce the same job identifier — identifiers are not unique per
(distro, buildName, package, platform). -/
theorem get_job_id_distro_collision_cex :
    get_job_id "foo" ⟨"humble", "default", "rhel", "9", "x86_64"⟩ =
      get_job_id "foo" ⟨"harmonic", "default", "rhel", "9", "x86_64"⟩ ∧
    (⟨"humble", "default", "rhel", "9", "x86_64"⟩ : JobArgs) ≠
      ⟨"harmonic", "default", "rhel", "9", "x86_64"⟩ :=
  ⟨by decide, by decide⟩

/-- C4 (amended): `_get_job_id` deterministically produces the documented
format `<DistroPrefix>rel[_<buildName>]__<pkgName>__<os>_<osCodeName>_<arch>`
where `DistroPrefix` is the uppercased first character of the distro name
and the `_<buildName>` part is present only when the build name differs
from `default`.  Identical inputs therefore always yield identical
identifiers, but distinct tuples can collide (e.g. distros sharing an
uppercased initial). -/
theorem get_job_id_spec_format :
    ∀ (pkg : String) (a : JobArgs) (c : Char) (rest : List Char),
      a.ros_distro.data = c :: rest →
      get_job_id pkg a =
        some (jobIdSpecFormat (String.mk [c.toUpper]) a.build_name pkg
          a.os_name a.os_code_name a.arch) := by
  intro pkg a c rest h
  unfold get_job_id
  rw [h]
  by_cases hb : a.build_name = "default"
  · simp [jobIdSpecFormat, hb, String.append_assoc]
  · simp only [jobIdSpecFormat, hb, if_neg, if_false, ite_false, String.append_assoc,
      Option.some.injEq]
    have h2 : ("rel_" : String) = "rel" ++ "_" := rfl
    simp [hb, String.append_assoc, h2]

theorem get_job_id_spec_format_witness :
    ("humble" : String).data = 'h' :: "umble".data ∧
    get_job_id "foo" ⟨"humble", "default", "rhel", "9", "x86_64"⟩ =
      some (jobIdSpecFormat (String.mk ['h'.toUpper]) "default" "foo"
        "rhel" "9" "x86_64") :=
  ⟨by decide,
   get_job_id_spec_format "foo" ⟨"humble", "default", "rhel", "9", "x86_64"⟩
     'h' "umble".data (by decide)⟩

/-! Sample descriptors for the `ros_workspace` injection claims. -/

def sampleRw : PkgDesc := ⟨"ros_workspace", {"catkin"}, ∅⟩

def sampleCatkin : PkgDesc := ⟨"catkin", ∅, ∅⟩

def sampleFoo : PkgDesc := ⟨"foo", {"ros_workspace"}, ∅⟩

def sampleDescs : List PkgDesc := [sampleRw, sampleCatkin, sampleFoo]

/-- C5 counterexample: `catkin` is a build dependency of `ros_workspace` —
it is neither the bootstrap package itself nor one of its dependents (no
dependency set of `catkin` mentions `ros_workspace`) — yet the injection
leaves `catkin` without the synthetic dependency; meanwhile `foo`, which
build-depends on `ros_workspace` (a dependent), does get `ros_workspace`
added to its run dependency set. -/
theorem inject_ros_workspace_cex :
    injectRosWorkspace sampleDescs =
      [sampleRw, sampleCatkin, ⟨"foo", {"ros_workspace"}, {"ros_workspace"}⟩] ∧
    "ros_workspace" ∉ sampleCatkin.buildDeps ∧
    "ros_workspace" ∉ sampleCatkin.runDeps :=
  ⟨by decide, by decide, by decide⟩

/-- C5 (amended): when a `ros_workspace` descriptor is among the discovered
packages, the synthetic `ros_workspace` dependency is added to both the
build and run dependency sets of every discovered package except
`ros_workspace` itself and the packages of its own build-dependency set
(not "its dependents"); every descriptor stays at its position and is
otherwise unchanged; when no `ros_workspace` package is discovered, no
descriptor is modified. -/
theorem inject_ros_workspace_behavior :
    ∀ descs : List PkgDesc,
      (descs.find? (fun d => d.name == "ros_workspace") = none →
        injectRosWorkspace descs = descs) ∧
      (∀ rw, descs.find? (fun d => d.name == "ros_workspace") = some rw →
        ∀ (i : Nat) (d : PkgDesc), descs[i]? = some d →
          (injectRosWorkspace descs)[i]? =
            some (if d.name ∈ insert rw.name rw.buildDeps then d
              else { d with buildDeps := insert "ros_workspace" d.buildDeps,
                            runDeps := insert "ros_workspace" d.runDeps })) := by
  intro descs
  constructor
  · intro h
    unfold injectRosWorkspace
    rw [h]
  · intro rw h i d hd
    unfold injectRosWorkspace
    rw [h, List.getElem?_map, hd]
    rfl

/-! Sample arguments and build files for the augmentation claims. -/

def sampleAugArgs : AugArgs := ⟨some "local", "rolling", "default"⟩

def sampleMultiOsBuildFile : BuildFileDoc :=
  ⟨[("rhel", [("9", ["x86_64"])]), ("fedora", [("38", ["x86_64"])])], none, none, none⟩

def sampleUbuntuBuildFile : BuildFileDoc :=
  ⟨[("ubuntu", [("jammy", ["amd64"])])], none, none, none⟩

def sampleRhelBuildFile : BuildFileDoc :=
  ⟨[("rhel", [("9", ["x86_64"])])], none, some ["http://example.com/upstream"], none⟩

/-- C6 counterexample: with backend `local` and a build file whose targets
span `rhel` and `fedora` — two OS families that both have a supported
package format — the pass reaches `assert len(os_names) == 1` and an
`AssertionError` escapes it, instead of the logged-warning abort the claim
describes (the build file is indeed not rewritten and the server not
started). -/
theorem augment_config_multi_os_assertion_cex :
    augment_config sampleAugArgs sampleMultiOsBuildFile "127.0.0.1" 8000 =
      AugmentOutcome.assertionFailure ∧
    serverStarted
      (augment_config sampleAugArgs sampleMultiOsBuildFile "127.0.0.1" 8000) = false ∧
    rewrittenDoc
      (augment_config sampleAugArgs sampleMultiOsBuildFile "127.0.0.1" 8000) = none :=
  ⟨by decide, by decide, by decide⟩

/-- C6 (amended): with backend `local`, when some target platform's OS has
no supported package format the pass aborts with only a logged warning —
the build file is not rewritten and the file server is not started; but
when every target OS is supported and the number of distinct target OS
families differs from one (in particular when the targets span more than
one OS family), the OS-family assertion fails and an `AssertionError`
escapes the pass (the build file is still not rewritten and the server
still not started). -/
theorem augment_config_abort_behavior :
    ∀ (args : AugArgs) (bf : BuildFileDoc) (host : String) (port : Nat),
      args.package_repository = some "local" →
      ((∃ t ∈ flatTargets bf,
          get_local_package_repository_extension_for_os t.1 = none) →
        augment_config args bf host port = AugmentOutcome.abortedNoExtension ∧
        serverStarted (augment_config args bf host port) = false ∧
        rewrittenDoc (augment_config args bf host port) = none) ∧
      ((∀ t ∈ flatTargets bf,
          (get_local_package_repository_extension_for_os t.1).isSome) →
        ((flatTargets bf).map (fun t => t.1)).dedup.length ≠ 1 →
        augment_config args bf host port = AugmentOutcome.assertionFailure ∧
        serverStarted (augment_config args bf host port) = false ∧
        rewrittenDoc (augment_config args bf host port) = none) := by
  intro args bf host port hlocal
  constructor
  · intro hex
    obtain ⟨t, ht, hnone⟩ := hex
    have hany : ((flatTargets bf).any
        (fun t => (get_local_package_repository_extension_for_os t.1).isNone)) = true :=
      List.any_eq_true.mpr ⟨t, ht, by simp [hnone]⟩
    have haug : augment_config args bf host port = AugmentOutcome.abortedNoExtension := by
      simp [augment_config, hlocal, hany]
    exact ⟨haug, by rw [haug]; rfl, by rw [haug]; rfl⟩
  · intro hall hlen
    have hany : ((flatTargets bf).any
        (fun t => (get_local_package_repository_extension_for_os t.1).isNone)) = false := by
      rw [List.any_eq_false]
      intro t ht
      have hs := hall t ht
      cases hgx : get_local_package_repository_extension_for_os t.1 with
      | none => rw [hgx] at hs; simp at hs
      | some v => simp [hgx]
    have haug : augment_config args bf host port = AugmentOutcome.assertionFailure := by
      simp only [augment_config, hlocal]
      rw [if_neg (by simp), if_neg (by simp [hany])]
      cases hd : ((flatTargets bf).map (fun t => t.1)).dedup with
      | nil => rfl
      | cons a tl =>
        cases tl with
        | nil => exact absurd (by rw [hd]; rfl) hlen
        | cons b tl2 => rfl
    exact ⟨haug, by rw [haug]; rfl, by rw [haug]; rfl⟩

theorem augment_config_abort_behavior_witness :
    sampleAugArgs.package_repository = some "local" ∧
    (("ubuntu", "jammy", "amd64") ∈ flatTargets sampleUbuntuBuildFile ∧
      get_local_package_repository_extension_for_os "ubuntu" = none) ∧
    augment_config sampleAugArgs sampleUbuntuBuildFile "127.0.0.1" 8000 =
      AugmentOutcome.abortedNoExtension :=
  ⟨rfl, ⟨by decide, by decide⟩,
   ((augment_config_abort_behavior sampleAugArgs sampleUbuntuBuildFile "127.0.0.1" 8000
      rfl).1 ⟨("ubuntu", "jammy", "amd64"), by decide, by decide⟩).1⟩

/-- C8: when the local-repository injection pass completes successfully, it
prepends the empty signing-key placeholder to the `repositories.keys` list
and the server base URL `http://<host>:<port>/<os_name>` to the
`repositories.urls` list (each list created when absent or empty), with
the `/$releasever/$basearch/` suffix appended to the prepended URL exactly
for the OS families `rhel` and `fedora`; the `target_repository` field is
set to the bare base URL and the targets are unchanged. -/
theorem augment_config_success_rewrite :
    ∀ (args : AugArgs) (bf : BuildFileDoc) (host : String) (port : Nat)
      (bf' : BuildFileDoc) (url : String),
      augment_config args bf host port = AugmentOutcome.success bf' url →
      ∃ os_name,
        ((flatTargets bf).map (fun t => t.1)).dedup = [os_name] ∧
        url = repoUrlBase host port os_name ∧
        bf'.repoKeys = some ("" :: bf.repoKeys.getD []) ∧
        bf'.repoUrls = some
          ((if os_name = "rhel" ∨ os_name = "fedora"
            then url ++ "/$releasever/$basearch/" else url) :: bf.repoUrls.getD []) ∧
        bf'.target_repository = some url ∧
        bf'.targets = bf.targets := by
  intro args bf host port bf' url h
  unfold augment_config at h
  split at h
  · exact absurd h (by simp)
  · split at h
    · exact absurd h (by simp)
    · split at h
      · rename_i os_name heq
        obtain ⟨h1, h2⟩ := AugmentOutcome.success.inj h
        refine ⟨os_name, heq, h2.symm, ?_, ?_, ?_, ?_⟩
        · rw [← h1]; simp [rewriteBuildFile]
        · rw [← h1, ← h2]; simp [rewriteBuildFile]
        · rw [← h1, ← h2]; simp [rewriteBuildFile]
        · rw [← h1]; simp [rewriteBuildFile]
      · exact absurd h (by simp)

theorem augment_config_success_rewrite_witness :
    augment_config sampleAugArgs sampleRhelBuildFile "127.0.0.1" 8000 =
      AugmentOutcome.success (rewriteBuildFile sampleRhelBuildFile "rhel" "127.0.0.1" 8000)
        (repoUrlBase "127.0.0.1" 8000 "rhel") ∧
    (rewriteBuildFile sampleRhelBuildFile "rhel" "127.0.0.1" 8000).repoUrls =
      some ["http://127.0.0.1:8000/rhel/$releasever/$basearch/",
        "http://example.com/upstream"] := by
  refine ⟨by decide, ?_⟩
  obtain ⟨os, hos, hurl, hk, hu, ht, htg⟩ :=
    augment_config_success_rewrite sampleAugArgs sampleRhelBuildFile "127.0.0.1" 8000
      (rewriteBuildFile sampleRhelBuildFile "rhel" "127.0.0.1" 8000)
      (repoUrlBase "127.0.0.1" 8000 "rhel") (by decide)
  have hd : ((flatTargets sampleRhelBuildFile).map (fun t => t.1)).dedup = ["rhel"] := by
    decide
  rw [hd] at hos
  obtain rfl : "rhel" = os := (List.cons.inj hos).1
  rw [hu]
  decide

theorem inject_ros_workspace_behavior_witness :
    sampleDescs.find? (fun d => d.name == "ros_workspace") = some sampleRw ∧
    sampleDescs[2]? = some sampleFoo ∧
    (injectRosWorkspace sampleDescs)[2]? =
      some (if sampleFoo.name ∈ insert sampleRw.name sampleRw.buildDeps then sampleFoo
        else { sampleFoo with buildDeps := insert "ros_workspace" sampleFoo.buildDeps,
                              runDeps := insert "ros_workspace" sampleFoo.runDeps }) :=
  ⟨by decide, by decide,
   (inject_ros_workspace_behavior sampleDescs).2 sampleRw (by decide) 2 sampleFoo
     (by decide)⟩

/-! Helper lemmas and sample data for the build-task claims. -/

/-- When every platform of the list succeeds, the loop in `build()` visits
all of them and returns `None`. -/
theorem taskBuild_all_success :
    ∀ (platforms : List (String × String × String))
      (outcome : String × String × String → StageCodes),
      (∀ p ∈ platforms, (buildStages (outcome p)).1 = none) →
      taskBuild platforms outcome = (none, platforms) := by
  intro platforms outcome
  induction platforms with
  | nil => intro _; rfl
  | cons q rest ih =>
    intro h
    have hq := h q (List.mem_cons_self q rest)
    have hrest := ih (fun p hp => h p (List.mem_cons_of_mem q hp))
    simp [taskBuild, hq, hrest]

/-- The loop in `build()` stops at the first platform whose `_build`
returns a non-zero code and returns that code. -/
theorem taskBuild_first_failure :
    ∀ (pre : List (String × String × String)) (p : String × String × String)
      (post : List (String × String × String)) (rc : Int)
      (outcome : String × String × String → StageCodes),
      (∀ q ∈ pre, (buildStages (outcome q)).1 = none) →
      (buildStages (outcome p)).1 = some rc →
      taskBuild (pre ++ p :: post) outcome = (some rc, pre ++ [p]) := by
  intro pre
  induction pre with
  | nil =>
    intro p post rc outcome _ hp
    simp [taskBuild, hp]
  | cons q qre ih =>
    intro p post rc outcome h hp
    have hq := h q (List.mem_cons_self q qre)
    have hrest := ih p post rc outcome (fun x hx => h x (List.mem_cons_of_mem q hx)) hp
    simp [taskBuild, hq, hrest]

def samplePlatforms : List (String × String × String) :=
  [("rhel", "9", "x86_64"), ("fedora", "38", "x86_64")]

def sampleOutcome : String × String × String → StageCodes :=
  fun p => if p.1 = "fedora" then ⟨0, 0, 3⟩ else ⟨0, 0, 0⟩

/-- C7: the stages of a build job run strictly in the order staging,
source-fetch, script-generation, script-execution, artifact-import
(`import_source` then `import_binary`); the first subprocess stage that
exits non-zero terminates the job returning exactly that exit code, with
no later stage executed; the artifact imports run only when the clone, the
script generation and the script execution all returned zero. -/
theorem build_stage_short_circuit :
    ∀ c : StageCodes,
      (c.clone ≠ 0 →
        buildStages c = (some c.clone, [Stage.staging, Stage.sourceFetch])) ∧
      (c.clone = 0 → c.gen ≠ 0 →
        buildStages c = (some c.gen,
          [Stage.staging, Stage.sourceFetch, Stage.scriptGen])) ∧
      (c.clone = 0 → c.gen = 0 → c.build ≠ 0 →
        buildStages c = (some c.build,
          [Stage.staging, Stage.sourceFetch, Stage.scriptGen, Stage.scriptExec])) ∧
      (c.clone = 0 → c.gen = 0 → c.build = 0 →
        buildStages c = (none, [Stage.staging, Stage.sourceFetch, Stage.scriptGen,
          Stage.scriptExec, Stage.importSource, Stage.importBinary])) ∧
      (buildStages c).2 <+: [Stage.staging, Stage.sourceFetch, Stage.scriptGen,
        Stage.scriptExec, Stage.importSource, Stage.importBinary] ∧
      (Stage.importSource ∈ (buildStages c).2 ↔
        c.clone = 0 ∧ c.gen = 0 ∧ c.build = 0) := by
  intro c
  refine ⟨?_, ?_, ?_, ?_, ?_, ?_⟩
  · intro h1; simp [buildStages, h1]
  · intro h1 h2; simp [buildStages, h1, h2]
  · intro h1 h2 h3; simp [buildStages, h1, h2, h3]
  · intro h1 h2 h3; simp [buildStages, h1, h2, h3]
  · by_cases h1 : c.clone = 0 <;> by_cases h2 : c.gen = 0 <;>
      by_cases h3 : c.build = 0 <;> simp [buildStages, h1, h2, h3]
  · by_cases h1 : c.clone = 0 <;> by_cases h2 : c.gen = 0 <;>
      by_cases h3 : c.build = 0 <;> simp [buildStages, h1, h2, h3]

theorem build_stage_short_circuit_witness :
    ((0 : Int) = 0 ∧ (4 : Int) ≠ 0) ∧
    buildStages ⟨0, 4, 0⟩ =
      (some 4, [Stage.staging, Stage.sourceFetch, Stage.scriptGen]) :=
  ⟨⟨rfl, by decide⟩,
   (build_stage_short_circuit ⟨0, 4, 0⟩).2.1 rfl (by decide)⟩

/-- C10: `build()` runs the complete `_build` stage sequence once per
platform triple of the package's `target_platforms` metadata (not only the
platform of the job's own arguments), in order; it stops at the first
platform whose `_build` returns a non-zero code, returning exactly that
code with the later platforms not visited; it returns success when every
platform succeeds, and in particular when the platform list is empty. -/
theorem task_build_per_platform :
    ∀ (platforms : List (String × String × String))
      (outcome : String × String × String → StageCodes),
      taskBuild ([] : List (String × String × String)) outcome = (none, []) ∧
      ((∀ p ∈ platforms, (buildStages (outcome p)).1 = none) →
        taskBuild platforms outcome = (none, platforms)) ∧
      (∀ (pre : List (String × String × String)) (p : String × String × String)
          (post : List (String × String × String)) (rc : Int),
        platforms = pre ++ p :: post →
        (∀ q ∈ pre, (buildStages (outcome q)).1 = none) →
        (buildStages (outcome p)).1 = some rc →
        taskBuild platforms outcome = (some rc, pre ++ [p])) := by
  intro platforms outcome
  refine ⟨rfl, taskBuild_all_success platforms outcome, ?_⟩
  intro pre p post rc hplat hpre hp
  rw [hplat]
  exact taskBuild_first_failure pre p post rc outcome hpre hp

theorem task_build_per_platform_witness :
    samplePlatforms = [("rhel", "9", "x86_64")] ++ ("fedora", "38", "x86_64") :: [] ∧
    (buildStages (sampleOutcome ("fedora", "38", "x86_64"))).1 = some 3 ∧
    taskBuild samplePlatforms sampleOutcome =
      (some 3, [("rhel", "9", "x86_64"), ("fedora", "38", "x86_64")]) :=
  ⟨rfl, by decide,
   (task_build_per_platform samplePlatforms sampleOutcome).2.2
     [("rhel", "9", "x86_64")] ("fedora", "38", "x86_64") [] 3 rfl
     (by decide) (by decide)⟩

end ColconRosBuildfarm
